import Mathlib

/-!
Shallow embedding of the BF6 stat-tracker bot (`index.js`, full version with
tracking commands).  JavaScript objects with optional fields become Lean
structures with `Option` fields; JavaScript numbers are modelled as `Int`
(counts, ranks, seconds) and `Rat` (ratios) — the concrete values exercised
here are all exactly representable; external effects (HTTP fetches, channel
sends, file writes) become explicit environments and state records.
-/

/-- JavaScript truthiness of an optional string (`undefined`/`null` and the
empty string are falsy). -/
def strTruthy : Option String → Bool
  | some s => s ≠ ""
  | none => false

/-- JavaScript truthiness of an optional number (`undefined`/`null` and `0`
are falsy). -/
def intTruthy : Option Int → Bool
  | some n => n ≠ 0
  | none => false

/-- A stats object returned by the API, as consumed by `createStatsEmbed` and
`statsChanged`: every field is optional (dynamic property probing with
`!== undefined` in the source).  Field order follows the embed's push order. -/
structure Snapshot where
  kills : Option Int := none
  deaths : Option Int := none
  kdRatio : Option Rat := none
  score : Option Int := none
  wins : Option Int := none
  losses : Option Int := none
  winPercent : Option Rat := none
  killsPerMinute : Option Rat := none
  timePlayed : Option Int := none
  rank : Option Int := none
  scorePerMinute : Option Rat := none
  avatar : Option String := none
  userName : Option String := none
  name : Option String := none
deriving DecidableEq

/-- One comparison step of `statsChanged`: a key field differs when both
sides define it and the values are distinct (`oldStats[f] !== undefined &&
newStats[f] !== undefined && oldStats[f] !== newStats[f]`). -/
def bothDefNe (a b : Option Int) : Bool :=
  match a, b with
  | some x, some y => x != y
  | _, _ => false

/-- `statsChanged(oldStats, newStats)`: true if `oldStats` is absent, else
true iff some key field in `[kills, deaths, score, wins, losses, rank]`
is defined on both sides with different values. -/
def statsChanged (oldStats : Option Snapshot) (newStats : Snapshot) : Bool :=
  match oldStats with
  | none => true
  | some o =>
    bothDefNe o.kills newStats.kills ||
    bothDefNe o.deaths newStats.deaths ||
    bothDefNe o.score newStats.score ||
    bothDefNe o.wins newStats.wins ||
    bothDefNe o.losses newStats.losses ||
    bothDefNe o.rank newStats.rank

/-- Inserts a thousands separator every three characters, taking the digit
list least-significant first. -/
def groupChars : List Char → List Char
  | a :: b :: c :: d :: rest => a :: b :: c :: ',' :: groupChars (d :: rest)
  | l => l

/-- `Number.prototype.toLocaleString()` on an integer in the default en-US
locale: decimal digits grouped in threes by commas. -/
def toLocaleStringInt (n : Int) : String :=
  (if n < 0 then "-" else "") ++
    String.mk ((groupChars (toString n.natAbs).data.reverse).reverse)

/-- Left-pads a string with zeros up to width `d`. -/
def padZeros (s : String) (d : Nat) : String :=
  String.mk (List.replicate (d - s.length) '0') ++ s

/-- `Number.prototype.toFixed(d)` on an exactly-representable value: the
integer `n` closest to `|q| * 10^d` (ties toward the larger `n`), printed
with `d` fractional digits and the sign of `q` in front. -/
def ratToFixed (q : Rat) (d : Nat) : String :=
  let sgn := if q < 0 then "-" else ""
  let a : Rat := if q < 0 then -q else q
  let n : Int := Int.fdiv (2 * a.num * (10 : Int) ^ d + (a.den : Int)) (2 * (a.den : Int))
  let m := n.toNat
  if d = 0 then sgn ++ toString m
  else sgn ++ toString (m / 10 ^ d) ++ "." ++ padZeros (toString (m % 10 ^ d)) d

/-- ASCII model of `String.prototype.toUpperCase()`. -/
def upperAscii (s : String) : String :=
  String.mk (s.data.map Char.toUpper)

/-- ASCII model of `String.prototype.toLowerCase()`. -/
def lowerAscii (s : String) : String :=
  String.mk (s.data.map Char.toLower)

/-- One labeled field of a Discord embed, as passed to `addFields`. -/
structure EmbedField where
  name : String
  value : String
  inline : Bool
deriving DecidableEq

/-- The embed built by `createStatsEmbed`: title, color, optional
description, labeled fields, optional thumbnail and a footer.  The
`setTimestamp()` call reads the wall clock and carries no data from the
snapshot, so it is not part of the model. -/
structure Embed where
  title : String
  color : Nat
  description : Option String
  fields : List EmbedField
  thumbnail : Option String
  footer : String
deriving DecidableEq

/-- `createStatsEmbed(stats, playerName, platform)`: pushes one labeled
field per defined snapshot field, in the source's fixed order, caps the
list at 25 (`fields.slice(0, 25)`), sets the description when
`stats.userName || stats.name` is truthy and the thumbnail when
`stats.avatar` is truthy. -/
def createStatsEmbed (stats : Snapshot) (playerName platform : String) : Embed :=
  let fields : List EmbedField :=
    (match stats.kills with
      | some v => [{ name := "💀 Kills", value := toLocaleStringInt v, inline := true }]
      | none => []) ++
    (match stats.deaths with
      | some v => [{ name := "☠️ Deaths", value := toLocaleStringInt v, inline := true }]
      | none => []) ++
    (match stats.kdRatio with
      | some v => [{ name := "📊 K/D Ratio", value := ratToFixed v 2, inline := true }]
      | none => []) ++
    (match stats.score with
      | some v => [{ name := "⭐ Score", value := toLocaleStringInt v, inline := true }]
      | none => []) ++
    (match stats.wins with
      | some v => [{ name := "🏆 Wins", value := toLocaleStringInt v, inline := true }]
      | none => []) ++
    (match stats.losses with
      | some v => [{ name := "❌ Losses", value := toLocaleStringInt v, inline := true }]
      | none => []) ++
    (match stats.winPercent with
      | some v => [{ name := "📈 Win %", value := ratToFixed v 1 ++ "%", inline := true }]
      | none => []) ++
    (match stats.killsPerMinute with
      | some v => [{ name := "⚡ Kills/Min", value := ratToFixed v 2, inline := true }]
      | none => []) ++
    (match stats.timePlayed with
      | some t =>
        [{ name := "⏱️ Time Played"
         , value := toString (Int.fdiv t 3600) ++ "h " ++
             toString (Int.fdiv (Int.tmod t 3600) 60) ++ "m"
         , inline := true }]
      | none => []) ++
    (match stats.rank with
      | some v => [{ name := "🎖️ Rank", value := toString v, inline := true }]
      | none => []) ++
    (match stats.scorePerMinute with
      | some v => [{ name := "📊 SPM", value := ratToFixed v 0, inline := true }]
      | none => [])
  { title := "🎮 " ++ playerName ++ "\x27s Battlefield 6 Stats"
  , color := 0x0099FF
  , description :=
      match (if strTruthy stats.userName then stats.userName else stats.name) with
      | some s => if s = "" then none else some ("**Player:** " ++ s)
      | none => none
  , fields := fields.take 25
  , thumbnail :=
      match stats.avatar with
      | some a => if a = "" then none else some a
      | none => none
  , footer := "Platform: " ++ upperAscii platform }

/-- A tracked player: `{ personaId: string, name: string, platform: string }`
with `personaId` possibly null. -/
structure Player where
  name : String
  platform : String
  personaId : Option String := none
deriving DecidableEq

/-- The cache key used for `lastStats`:
`player.personaId || `${player.name}_${player.platform}``. -/
def playerKey (p : Player) : String :=
  match p.personaId with
  | some pid => if pid = "" then p.name ++ "_" ++ p.platform else pid
  | none => p.name ++ "_" ++ p.platform

/-- The in-memory `lastStats` map, keyed by `playerKey`. -/
abbrev Cache : Type := List (String × Snapshot)

/-- `lastStats.get(k)` (`undefined` when absent). -/
def cacheGet (c : Cache) (k : String) : Option Snapshot :=
  (List.find? (fun e => e.1 = k) c).map (fun e => e.2)

/-- `lastStats.set(k, v)`: replaces the entry for `k`, appending when new. -/
def cacheSet (c : Cache) (k : String) (v : Snapshot) : Cache :=
  match c with
  | [] => [(k, v)]
  | e :: rest => if e.1 = k then (k, v) :: rest else e :: cacheSet rest k v

/-- `lastStats.delete(k)`. -/
def cacheDel (c : Cache) (k : String) : Cache :=
  List.filter (fun e => e.1 ≠ k) c

/-- The effects a poll pass interacts with: whether the configured channel
resolves, the outcome of `fetchPlayerStats` per player (`none` covers both
network errors and non-2xx responses), and whether `channel.send` succeeds
for a given player's post. -/
structure PollEnv where
  channelOk : Bool
  fetchResult : Player → Option Snapshot
  sendOk : Player → Bool

/-- `postPlayerStats(player)`: resolve the channel, fetch, compare against
the cached snapshot with `statsChanged`, and on a change render and send;
only a successful send stores the new snapshot in the cache.  Returns the
updated cache and the embeds actually posted. -/
def postPlayerStats (env : PollEnv) (cache : Cache) (player : Player) :
    Cache × List Embed :=
  if env.channelOk = false then (cache, [])
  else
    match env.fetchResult player with
    | none => (cache, [])
    | some stats =>
      let key := playerKey player
      let lastStatsData := cacheGet cache key
      if statsChanged lastStatsData stats = false then (cache, [])
      else
        let embed := createStatsEmbed stats player.name player.platform
        if env.sendOk player then (cacheSet cache key stats, [embed])
        else (cache, [])

/-- `postAllStats()`: iterates the tracked players sequentially in store
order, threading the cache through `postPlayerStats` and collecting the
posted embeds (the fixed 2-second pause between players carries no data). -/
def postAllStats (env : PollEnv) (cache : Cache) : List Player → Cache × List Embed
  | [] => (cache, [])
  | player :: rest =>
    let r1 := postPlayerStats env cache player
    let r2 := postAllStats env r1.1 rest
    (r2.1, r1.2 ++ r2.2)

/-- One parsed JSON body from the stats API, read for best-effort fields. -/
structure ApiData where
  userName : Option String := none
  name : Option String := none
  personaId : Option String := none
  id : Option String := none
  rank : Option Int := none
  kills : Option Int := none
deriving DecidableEq

/-- The outcome of one `fetch` + `response.json()` round trip: a thrown
error, a non-2xx response, or a 2xx response whose body parsed to `null`
or to an object. -/
inductive FetchOutcome where
  | throws
  | notOk
  | ok (data : Option ApiData)
deriving DecidableEq

/-- The fixed platform iteration order used by the search and probes. -/
def platforms : List String := ["pc", "xbox", "psn"]

/-- One entry pushed onto `results` by `searchPlayers`. -/
structure SearchResult where
  name : String
  personaId : Option String
  platform : String
  rank : Option Int
  kills : Option Int
deriving DecidableEq

/-- The object `searchPlayers` pushes for a recognizable body:
`name: data.userName || data.name || playerName`,
`personaId: data.personaId || data.id || null`, and `rank`/`kills`
defaulted to null when falsy. -/
def mkSearchResult (playerName platform : String) (data : ApiData) : SearchResult :=
  { name :=
      if strTruthy data.userName then data.userName.getD ""
      else if strTruthy data.name then data.name.getD "" else playerName
  , personaId :=
      if strTruthy data.personaId then data.personaId
      else if strTruthy data.id then data.id else none
  , platform := platform
  , rank := if intTruthy data.rank then data.rank else none
  , kills := if intTruthy data.kills then data.kills else none }

/-- The body of `searchPlayers`' for-loop over a platform list: a 2xx
response whose body is truthy and has a truthy `userName`, `name` or
`personaId` contributes a result; errors and unusable bodies are skipped
and the remaining platforms are still visited. -/
def searchLoop (env : String → FetchOutcome) (playerName : String) :
    List String → List SearchResult
  | [] => []
  | platform :: rest =>
    let tail := searchLoop env playerName rest
    match env platform with
    | .ok (some data) =>
      if strTruthy data.userName || strTruthy data.name || strTruthy data.personaId then
        mkSearchResult playerName platform data :: tail
      else tail
    | _ => tail

/-- `searchPlayers(playerName)`: the search loop over the fixed platform
list `['pc', 'xbox', 'psn']`; `env` gives each platform's fetch outcome. -/
def searchPlayers (env : String → FetchOutcome) (playerName : String) :
    List SearchResult :=
  searchLoop env playerName platforms

/-- Whether a platform's response contributes a search result: HTTP 2xx
with a truthy body that defines `userName`, `name` or `personaId`. -/
def includedB (env : String → FetchOutcome) (platform : String) : Bool :=
  match env platform with
  | .ok (some data) =>
    strTruthy data.userName || strTruthy data.name || strTruthy data.personaId
  | _ => false

/-- The search result a platform contributes when it is included. -/
def resultFor (env : String → FetchOutcome) (playerName platform : String) :
    SearchResult :=
  match env platform with
  | .ok (some data) => mkSearchResult playerName platform data
  | _ => mkSearchResult playerName platform {}

/-- The `foundPlayer` object both the `!add` and `!track` probes build from
a recognizable body: `name: data.userName || data.name || 'Unknown'`,
`personaId: data.personaId || data.id || playerId`. -/
def foundPlayerOf (playerId platform : String) (data : ApiData) : Player :=
  { name :=
      if strTruthy data.userName then data.userName.getD ""
      else if strTruthy data.name then data.name.getD "" else "Unknown"
  , platform := platform
  , personaId := some
      (if strTruthy data.personaId then data.personaId.getD ""
       else if strTruthy data.id then data.id.getD "" else playerId) }

/-- The `!add` handler's per-platform probe loop (lines 409–430): fetch by
`personaId` for each platform in order, stop (`break`) at the first
recognizable player, skip errors, and record the issued
`(playerId, platform)` requests in order. -/
def addProbeLoop (env : String → FetchOutcome) (playerId : String) :
    List String → Option Player × List (String × String)
  | [] => (none, [])
  | platform :: rest =>
    match env platform with
    | .ok (some data) =>
      if strTruthy data.userName || strTruthy data.name || strTruthy data.personaId then
        (some (foundPlayerOf playerId platform data), [(playerId, platform)])
      else
        let r := addProbeLoop env playerId rest
        (r.1, (playerId, platform) :: r.2)
    | _ =>
      let r := addProbeLoop env playerId rest
      (r.1, (playerId, platform) :: r.2)

/-- The `!track` handler's per-platform probe loop (lines 476–495), a
textual duplicate of the `!add` probe except for the rate-limit pause. -/
def trackProbeLoop (env : String → FetchOutcome) (playerId : String) :
    List String → Option Player × List (String × String)
  | [] => (none, [])
  | platform :: rest =>
    match env platform with
    | .ok (some data) =>
      if strTruthy data.userName || strTruthy data.name || strTruthy data.personaId then
        (some (foundPlayerOf playerId platform data), [(playerId, platform)])
      else
        let r := trackProbeLoop env playerId rest
        (r.1, (playerId, platform) :: r.2)
    | _ =>
      let r := trackProbeLoop env playerId rest
      (r.1, (playerId, platform) :: r.2)

/-- The `!add` probe over the fixed platform list. -/
def addProbe (env : String → FetchOutcome) (playerId : String) :
    Option Player × List (String × String) :=
  addProbeLoop env playerId platforms

/-- The `!track` probe over the fixed platform list. -/
def trackProbe (env : String → FetchOutcome) (playerId : String) :
    Option Player × List (String × String) :=
  trackProbeLoop env playerId platforms

/-- The mutable state the command handlers touch: the in-memory
`trackedPlayers` list, the `lastStats` cache, and the contents of
`trackedPlayers.json` (already parsed; `none` when the file is absent). -/
structure BotState where
  trackedPlayers : List Player
  lastStats : Cache
  file : Option (List Player)
deriving DecidableEq

/-- `saveTrackedPlayers()`: rewrites the file with the full in-memory list;
a thrown write error (`writeOk = false`) is logged and leaves the file
as it was. -/
def saveTrackedPlayers (writeOk : Bool) (s : BotState) : BotState :=
  if writeOk then { s with file := some s.trackedPlayers } else s

/-- The duplicate check shared verbatim by the `!add` (lines 437–440) and
`!track` (lines 503–506) handlers:
`trackedPlayers.find(p => (p.personaId && p.personaId === foundPlayer.personaId) ||
(p.name === foundPlayer.name && p.platform === foundPlayer.platform))`. -/
def alreadyTracked (tracked : List Player) (foundPlayer : Player) : Option Player :=
  List.find?
    (fun p =>
      (strTruthy p.personaId && p.personaId == foundPlayer.personaId) ||
      (p.name == foundPlayer.name && p.platform == foundPlayer.platform))
    tracked

/-- The tail both the `!add` and `!track` handlers run once `foundPlayer`
is known (lines 437–448 and 503–514): reply "already being tracked" and
change nothing on a duplicate, else push the player and save.  The returned
flag is `true` exactly when the player was appended (and a save ran). -/
def addCore (writeOk : Bool) (s : BotState) (foundPlayer : Player) :
    BotState × Bool :=
  match alreadyTracked s.trackedPlayers foundPlayer with
  | some _ => (s, false)
  | none =>
    (saveTrackedPlayers writeOk
      { s with trackedPlayers := s.trackedPlayers ++ [foundPlayer] }, true)

/-- `Array.prototype.findIndex` (with `none` for `-1`): index of the first
element satisfying the predicate. -/
def findIndexAux (pred : Player → Bool) : List Player → Option Nat
  | [] => none
  | p :: rest => if pred p then some 0 else (findIndexAux pred rest).map (· + 1)

/-- The `!untrack` match predicate:
`(p.personaId && p.personaId === playerId) ||
p.name.toLowerCase() === playerId.toLowerCase()`. -/
def untrackPred (playerId : String) (p : Player) : Bool :=
  (strTruthy p.personaId && p.personaId == some playerId) ||
  (lowerAscii p.name == lowerAscii playerId)

/-- The `!untrack` handler (lines 562–579): find the first tracked player
matching the argument; when none matches reply "not being tracked" and
change nothing; otherwise splice that player out, save the list, and delete
their `lastStats` entry.  The returned flag is `true` exactly when a player
was removed. -/
def untrackCmd (writeOk : Bool) (s : BotState) (playerId : String) :
    BotState × Bool :=
  match findIndexAux (untrackPred playerId) s.trackedPlayers with
  | none => (s, false)
  | some index =>
    let removedPlayer :=
      s.trackedPlayers.getD index { name := "", platform := "", personaId := none }
    let s1 := saveTrackedPlayers writeOk
      { s with trackedPlayers := s.trackedPlayers.eraseIdx index }
    ({ s1 with lastStats := cacheDel s1.lastStats (playerKey removedPlayer) }, true)

/-- Strips a leading character sequence, returning the remainder. -/
def dropLead : List Char → List Char → Option (List Char)
  | [], cs => some cs
  | _ :: _, [] => none
  | p :: ps, c :: cs => if c = p then dropLead ps cs else none

/-- `String.prototype.split(sep)` on a character list. -/
def splitOnChar (sep : Char) : List Char → List (List Char)
  | [] => [[]]
  | c :: rest =>
    let r := splitOnChar sep rest
    if c = sep then [] :: r else (c :: r.headD []) :: r.tail

/-- `new URL(url).pathname.split('/').filter(p => p)`, modelled for plain
`http`/`https` URLs without query string or fragment: everything after the
host, split on `/`, with empty segments dropped.  A string that is not such
a URL makes the `URL` constructor throw, which `parseTrackerUrl` turns into
`null`. -/
def urlPathParts (url : String) : Option (List String) :=
  match dropLead "https://".data url.data with
  | some rest => some (((splitOnChar '/' rest).drop 1).filterMap
      (fun s => if s = [] then none else some (String.mk s)))
  | none =>
    match dropLead "http://".data url.data with
    | some rest => some (((splitOnChar '/' rest).drop 1).filterMap
        (fun s => if s = [] then none else some (String.mk s)))
    | none => none

/-- The regular expression test `/^\d+$/.test(s)`. -/
def isAllDigits (s : String) : Bool :=
  s ≠ "" && s.data.all Char.isDigit

/-- `parseTrackerUrl(url)`: the third filtered path segment when the path
is `bf6/profile/<digits>/…`, and `null` otherwise (including when the URL
constructor throws). -/
def parseTrackerUrl (url : String) : Option String :=
  match urlPathParts url with
  | none => none
  | some pathParts =>
    if 3 ≤ pathParts.length ∧ pathParts.getD 0 "" = "bf6" ∧
        pathParts.getD 1 "" = "profile" then
      let thirdPart := pathParts.getD 2 ""
      if isAllDigits thirdPart then some thirdPart else none
    else none

/-- A tracked player's identity key as the specification defines it:
the persona id when one is known (JavaScript-truthy), else the
name-plus-platform pair, kept as a tagged value rather than a flattened
string so the two kinds cannot collide. -/
inductive IdKey where
  | pid : String → IdKey
  | nameAndPlatform : String → String → IdKey
deriving DecidableEq

/-- The identity key of a player. -/
def identityKey (p : Player) : IdKey :=
  match p.personaId with
  | some s => if s = "" then IdKey.nameAndPlatform p.name p.platform else IdKey.pid s
  | none => IdKey.nameAndPlatform p.name p.platform

/-- Two tracked entries are distinct in the strong sense of claim C10: they
never carry the same persona id, and never the same name-platform pair. -/
def distinctIds (p q : Player) : Prop :=
  (∀ a b, p.personaId = some a → q.personaId = some b → a ≠ b) ∧
  (p.name ≠ q.name ∨ p.platform ≠ q.platform)

/-- Two optional key-field values agree whenever both are defined; an
absent side never witnesses a difference. -/
def agreeOpt (a b : Option Int) : Prop :=
  ∀ x y, a = some x → b = some y → x = y

theorem strTruthy_iff (o : Option String) :
    strTruthy o = true ↔ ∃ s, o = some s ∧ s ≠ "" := by
  cases o <;> simp [strTruthy]

theorem bothDefNe_eq_false_of_agree {a b : Option Int} (h : agreeOpt a b) :
    bothDefNe a b = false := by
  cases a with
  | none => rfl
  | some x =>
    cases b with
    | none => rfl
    | some y => simp [bothDefNe, h x y rfl rfl]

/-- C1: `changed(absent, current)` is true for every current snapshot, and
`changed(A, B)` is false whenever every field of the fixed comparison set
`{kills, deaths, score, wins, losses, rank}` agrees on the two snapshots
wherever both define it — in particular when A and B differ only in fields
outside that set, or only in fixed-set fields undefined on one side. -/
theorem statsChanged_spec :
    (∀ B : Snapshot, statsChanged none B = true) ∧
    (∀ A B : Snapshot,
      agreeOpt A.kills B.kills → agreeOpt A.deaths B.deaths →
      agreeOpt A.score B.score → agreeOpt A.wins B.wins →
      agreeOpt A.losses B.losses → agreeOpt A.rank B.rank →
      statsChanged (some A) B = false) := by
  constructor
  · intro B; rfl
  · intro A B hk hd hs hw hl hr
    simp [statsChanged, bothDefNe_eq_false_of_agree, hk, hd, hs, hw, hl, hr]

theorem statsChanged_spec_witness :
    statsChanged none { kills := some 1 } = true ∧
    statsChanged (some { kills := some 1, kdRatio := some 2 })
      { deaths := some 7, kdRatio := some 3 } = false := by
  refine ⟨statsChanged_spec.1 _, statsChanged_spec.2 _ _ ?_ ?_ ?_ ?_ ?_ ?_⟩ <;>
    intro x y hx hy <;> simp_all

/-- C3: rendering a snapshot holding exactly `kills = 100`, `deaths = 50`
and `kdRatio = 2.0` yields exactly the three labeled fields Kills = "100"
(locale-grouped), Deaths = "50" and K/D Ratio = "2.00" (two fixed
decimals), in that order, with no field for any other stat. -/
theorem createStatsEmbed_core_fields :
    (createStatsEmbed { kills := some 100, deaths := some 50, kdRatio := some 2 }
        "Player" "pc").fields =
      [ { name := "💀 Kills", value := "100", inline := true },
        { name := "☠️ Deaths", value := "50", inline := true },
        { name := "📊 K/D Ratio", value := "2.00", inline := true } ] := by
  decide

/-- C2: a poll pass walks the tracked players in store order threading the
cache left to right; a failed fetch skips the player and leaves the pass to
continue; the cache entry is written exactly when a message is posted (a
failed fetch, an unchanged snapshot or a failed send leaves the cache as it
was); and a pass over one failing-fetch player followed by one successful
changed player posts exactly that player's embed. -/
theorem postAllStats_spec :
    (∀ (env : PollEnv) (cache : Cache) (p : Player) (rest : List Player),
      postAllStats env cache (p :: rest) =
        ((postAllStats env (postPlayerStats env cache p).1 rest).1,
         (postPlayerStats env cache p).2 ++
           (postAllStats env (postPlayerStats env cache p).1 rest).2)) ∧
    (∀ (env : PollEnv) (cache : Cache) (p : Player),
      env.fetchResult p = none → postPlayerStats env cache p = (cache, [])) ∧
    (∀ (env : PollEnv) (cache : Cache) (p : Player),
      (postPlayerStats env cache p).2 = [] →
      (postPlayerStats env cache p).1 = cache) ∧
    (∀ (env : PollEnv) (cache : Cache) (p : Player) (stats : Snapshot),
      env.fetchResult p = some stats →
      (postPlayerStats env cache p).2 ≠ [] →
      (postPlayerStats env cache p).1 = cacheSet cache (playerKey p) stats) ∧
    (∀ (env : PollEnv) (cache : Cache) (p1 p2 : Player) (stats : Snapshot),
      env.channelOk = true →
      env.fetchResult p1 = none → env.fetchResult p2 = some stats →
      statsChanged (cacheGet cache (playerKey p2)) stats = true →
      env.sendOk p2 = true →
      (postAllStats env cache [p1, p2]).2 =
        [createStatsEmbed stats p2.name p2.platform]) := by
  refine ⟨?_, ?_, ?_, ?_, ?_⟩
  · intro env cache p rest; rfl
  · intro env cache p h
    cases hc : env.channelOk <;> simp [postPlayerStats, hc, h]
  · intro env cache p h
    cases hc : env.channelOk with
    | false => simp [postPlayerStats, hc]
    | true =>
      cases hf : env.fetchResult p with
      | none => simp [postPlayerStats, hc, hf]
      | some stats =>
        simp only [postPlayerStats, hc, hf, Bool.true_eq_false, if_false] at h ⊢
        cases hch : statsChanged (cacheGet cache (playerKey p)) stats with
        | false => simp [hch]
        | true =>
          simp only [hch, Bool.false_eq_true, if_false] at h ⊢
          cases hs : env.sendOk p <;> simp [hs] at h ⊢
  · intro env cache p stats hf h
    cases hc : env.channelOk with
    | false => simp [postPlayerStats, hc] at h
    | true =>
      simp only [postPlayerStats, hc, hf, Bool.true_eq_false, if_false] at h ⊢
      cases hch : statsChanged (cacheGet cache (playerKey p)) stats with
      | false => simp [hch] at h
      | true =>
        simp only [hch, Bool.false_eq_true, if_false] at h ⊢
        cases hs : env.sendOk p <;> simp [hs] at h ⊢
  · intro env cache p1 p2 stats hc h1 h2 hch hs
    simp [postAllStats, postPlayerStats, hc, h1, h2, hch, hs]

theorem postAllStats_spec_witness :
    (PollEnv.mk true
        (fun p => if p.name = "A" then none else some { kills := some 1 })
        (fun _ => true)).channelOk = true ∧
    (PollEnv.mk true
        (fun p => if p.name = "A" then none else some { kills := some 1 })
        (fun _ => true)).fetchResult { name := "A", platform := "pc" } = none ∧
    (PollEnv.mk true
        (fun p => if p.name = "A" then none else some { kills := some 1 })
        (fun _ => true)).fetchResult { name := "B", platform := "pc" } =
      some { kills := some 1 } ∧
    statsChanged (cacheGet [] (playerKey { name := "B", platform := "pc" }))
      { kills := some 1 } = true ∧
    (PollEnv.mk true
        (fun p => if p.name = "A" then none else some { kills := some 1 })
        (fun _ => true)).sendOk { name := "B", platform := "pc" } = true ∧
    (postAllStats
        (PollEnv.mk true
          (fun p => if p.name = "A" then none else some { kills := some 1 })
          (fun _ => true))
        [] [{ name := "A", platform := "pc" }, { name := "B", platform := "pc" }]).2 =
      [createStatsEmbed { kills := some 1 } "B" "pc"] :=
  ⟨rfl, by decide, by decide, by decide,
   rfl,
   postAllStats_spec.2.2.2.2 _ _ _ _ _ rfl (by decide) (by decide) (by decide) rfl⟩

theorem identityKey_eq_cases {p fp : Player} (hkey : identityKey p = identityKey fp) :
    (strTruthy p.personaId = true ∧ p.personaId = fp.personaId) ∨
    (p.name = fp.name ∧ p.platform = fp.platform) := by
  unfold identityKey at hkey
  cases hp : p.personaId with
  | none =>
    rw [hp] at hkey
    cases hq : fp.personaId with
    | none =>
      rw [hq] at hkey
      simp only [IdKey.nameAndPlatform.injEq] at hkey
      exact Or.inr hkey
    | some b =>
      rw [hq] at hkey
      by_cases hb : b = ""
      · simp only [hb, if_true, IdKey.nameAndPlatform.injEq] at hkey
        exact Or.inr hkey
      · simp only [hb, if_false] at hkey
        exact IdKey.noConfusion hkey
  | some a =>
    rw [hp] at hkey
    by_cases ha : a = ""
    · simp only [ha, if_true] at hkey
      cases hq : fp.personaId with
      | none =>
        rw [hq] at hkey
        simp only [IdKey.nameAndPlatform.injEq] at hkey
        exact Or.inr hkey
      | some b =>
        rw [hq] at hkey
        by_cases hb : b = ""
        · simp only [hb, if_true, IdKey.nameAndPlatform.injEq] at hkey
          exact Or.inr hkey
        · simp only [hb, if_false] at hkey
          exact IdKey.noConfusion hkey
    · simp only [ha, if_false] at hkey
      cases hq : fp.personaId with
      | none =>
        rw [hq] at hkey
        exact IdKey.noConfusion hkey
      | some b =>
        rw [hq] at hkey
        by_cases hb : b = ""
        · simp only [hb, if_true] at hkey
          exact IdKey.noConfusion hkey
        · simp only [hb, if_false, IdKey.pid.injEq] at hkey
          subst hkey
          exact Or.inl ⟨by simp [strTruthy, hp, ha], by simp [hp, hq]⟩

theorem alreadyTracked_of_collision {tracked : List Player} {fp p : Player}
    (hmem : p ∈ tracked) (hkey : identityKey p = identityKey fp) :
    alreadyTracked tracked fp ≠ none := by
  rw [alreadyTracked, Ne, List.find?_eq_none]
  push_neg
  refine ⟨p, hmem, ?_⟩
  simp only [Bool.or_eq_true, Bool.and_eq_true, beq_iff_eq]
  exact identityKey_eq_cases hkey

/-- C4: whenever the player looked up by the `!add` or `!track` handler has
the same identity key (persona id when known, else name plus platform) as
an entry already in the store, the handler takes the "already being
tracked" reply path: nothing is appended and no save runs, so the whole
state is returned unchanged. -/
theorem addCore_identity_collision :
    ∀ (writeOk : Bool) (s : BotState) (fp : Player),
      (∃ p ∈ s.trackedPlayers, identityKey p = identityKey fp) →
      addCore writeOk s fp = (s, false) := by
  intro w s fp ⟨p, hmem, hkey⟩
  have hfind := alreadyTracked_of_collision hmem hkey
  cases h : alreadyTracked s.trackedPlayers fp with
  | none => exact absurd h hfind
  | some q => simp [addCore, h]

theorem addCore_identity_collision_witness :
    (∃ p ∈ ({ trackedPlayers := [{ name := "Alice", platform := "pc", personaId := some "77" }],
              lastStats := [], file := none } : BotState).trackedPlayers,
        identityKey p =
          identityKey { name := "Other", platform := "xbox", personaId := some "77" }) ∧
    addCore true
        { trackedPlayers := [{ name := "Alice", platform := "pc", personaId := some "77" }],
          lastStats := [], file := none }
        { name := "Other", platform := "xbox", personaId := some "77" } =
      ({ trackedPlayers := [{ name := "Alice", platform := "pc", personaId := some "77" }],
         lastStats := [], file := none }, false) :=
  ⟨by decide, addCore_identity_collision _ _ _ (by decide)⟩

theorem addProbeLoop_personaId {env : String → FetchOutcome} {pid : String}
    {pls : List String} {fp : Player} (hpid : pid ≠ "")
    (hf : (addProbeLoop env pid pls).1 = some fp) :
    ∃ a, fp.personaId = some a ∧ a ≠ "" := by
  induction pls with
  | nil => simp [addProbeLoop] at hf
  | cons pl rest ih =>
    simp only [addProbeLoop] at hf
    cases h : env pl with
    | throws => rw [h] at hf; exact ih hf
    | notOk => rw [h] at hf; exact ih hf
    | ok data =>
      rw [h] at hf
      cases data with
      | none => exact ih hf
      | some d =>
        by_cases hr : (strTruthy d.userName || strTruthy d.name ||
            strTruthy d.personaId) = true
        · simp only [if_pos hr, Option.some.injEq] at hf
          subst hf
          simp only [foundPlayerOf]
          refine ⟨_, rfl, ?_⟩
          by_cases h1 : strTruthy d.personaId = true
          · obtain ⟨s, hs, hne⟩ := (strTruthy_iff _).mp h1
            rw [if_pos h1, hs]
            simpa using hne
          · by_cases h2 : strTruthy d.id = true
            · obtain ⟨s, hs, hne⟩ := (strTruthy_iff _).mp h2
              rw [if_neg h1, if_pos h2, hs]
              simpa using hne
            · rw [if_neg h1, if_neg h2]
              exact hpid
        · simp only [if_neg hr] at hf
          exact ih hf

/-- C10: the handlers enforce more than identity-key uniqueness: a store in
which no two entries share a persona id and no two share a name-platform
pair stays that way through `!add`/`!track` (whose probes always attach a
non-empty persona id to the looked-up player), and a looked-up player whose
name and platform match an existing entry is rejected outright, even when
the persona ids — and hence the identity keys — differ. -/
theorem add_preserves_uniqueness :
    (∀ (writeOk : Bool) (s : BotState) (fp : Player) (pid : String),
      fp.personaId = some pid → pid ≠ "" →
      List.Pairwise distinctIds s.trackedPlayers →
      List.Pairwise distinctIds (addCore writeOk s fp).1.trackedPlayers) ∧
    (∀ (writeOk : Bool) (s : BotState) (fp : Player),
      (∃ p ∈ s.trackedPlayers, p.name = fp.name ∧ p.platform = fp.platform) →
      addCore writeOk s fp = (s, false)) ∧
    (∀ (env : String → FetchOutcome) (playerId : String) (fp : Player),
      playerId ≠ "" → (addProbe env playerId).1 = some fp →
      ∃ a, fp.personaId = some a ∧ a ≠ "") := by
  refine ⟨?_, ?_, ?_⟩
  · intro w s fp pid hpid hne hpw
    cases h : alreadyTracked s.trackedPlayers fp with
    | some q => simpa [addCore, h] using hpw
    | none =>
      have hall := (List.find?_eq_none.mp h)
      simp only [addCore, h, saveTrackedPlayers]
      have : List.Pairwise distinctIds (s.trackedPlayers ++ [fp]) := by
        rw [List.pairwise_append]
        refine ⟨hpw, List.pairwise_singleton _ _, ?_⟩
        intro p hp b hb
        rw [List.mem_singleton] at hb
        rw [hb]
        have hnp := hall p hp
        simp only [Bool.or_eq_true, Bool.and_eq_true, beq_iff_eq, not_or,
          not_and] at hnp
        constructor
        · intro x y hx hy
          rw [hpid] at hy
          cases hy
          intro hxy
          subst hxy
          exact hnp.1 (by simp [strTruthy, hx, hne]) (by rw [hx, hpid])
        · by_cases hn : p.name = fp.name
          · exact Or.inr (hnp.2 hn)
          · exact Or.inl hn
      cases w <;> simpa using this
  · intro w s fp ⟨p, hmem, hname, hplat⟩
    have hfind : alreadyTracked s.trackedPlayers fp ≠ none := by
      rw [alreadyTracked, Ne, List.find?_eq_none]
      push_neg
      exact ⟨p, hmem, by simp [hname, hplat]⟩
    cases h : alreadyTracked s.trackedPlayers fp with
    | none => exact absurd h hfind
    | some q => simp [addCore, h]
  · intro env pid fp hpid hf
    exact addProbeLoop_personaId hpid hf

theorem add_preserves_uniqueness_witness :
    ({ name := "New", platform := "pc", personaId := some "9" } : Player).personaId =
      some "9" ∧
    ("9" : String) ≠ "" ∧
    List.Pairwise distinctIds
      [{ name := "Old", platform := "pc", personaId := some "5" }] ∧
    List.Pairwise distinctIds
      (addCore true
        { trackedPlayers := [{ name := "Old", platform := "pc", personaId := some "5" }],
          lastStats := [], file := none }
        { name := "New", platform := "pc", personaId := some "9" }).1.trackedPlayers :=
  ⟨rfl, by decide,
   List.pairwise_singleton _ _,
   add_preserves_uniqueness.1 true _ _ "9" rfl (by decide)
     (List.pairwise_singleton _ _)⟩

theorem findIndexAux_eq_none {pred : Player → Bool} {l : List Player} :
    findIndexAux pred l = none ↔ ∀ p ∈ l, pred p = false := by
  induction l with
  | nil => simp [findIndexAux]
  | cons p rest ih =>
    by_cases h : pred p = true <;>
      simp [findIndexAux, h, ih, Option.map_eq_none']

theorem findIndexAux_eq_some {pred : Player → Bool} {l : List Player} {i : Nat}
    (h : findIndexAux pred l = some i) :
    ∃ x, l[i]? = some x ∧ pred x = true ∧
      ∀ j, j < i → ∃ y, l[j]? = some y ∧ pred y = false := by
  induction l generalizing i with
  | nil => simp [findIndexAux] at h
  | cons p rest ih =>
    simp only [findIndexAux] at h
    by_cases hp : pred p = true
    · rw [if_pos hp] at h
      cases h
      exact ⟨p, by simp, hp, fun j hj => absurd hj (Nat.not_lt_zero j)⟩
    · rw [if_neg hp, Option.map_eq_some'] at h
      obtain ⟨i2, hi2, rfl⟩ := h
      obtain ⟨x, hx, hpx, hmin⟩ := ih hi2
      refine ⟨x, by simpa using hx, hpx, ?_⟩
      intro j hj
      cases j with
      | zero => exact ⟨p, by simp, by simpa using hp⟩
      | succ k =>
        obtain ⟨y, hy, hpy⟩ := hmin k (by omega)
        exact ⟨y, by simpa using hy, hpy⟩

theorem getD_eq_of_getElem? {l : List Player} {i : Nat} {x d : Player}
    (h : l[i]? = some x) : l.getD i d = x := by
  induction l generalizing i with
  | nil => simp at h
  | cons p rest ih =>
    cases i with
    | zero => simp_all [List.getD]
    | succ k =>
      simp only [List.getElem?_cons_succ] at h
      simpa [List.getD] using ih h

theorem cacheGet_cons (e : String × Snapshot) (rest : Cache) (k : String) :
    cacheGet (e :: rest) k = if e.1 = k then some e.2 else cacheGet rest k := by
  by_cases he : e.1 = k
  · rw [if_pos he]
    unfold cacheGet
    rw [List.find?_cons_of_pos _ (by simpa using he)]
    rfl
  · rw [if_neg he]
    unfold cacheGet
    rw [List.find?_cons_of_neg _ (by simpa using he)]

theorem cacheDel_cons (e : String × Snapshot) (rest : Cache) (k : String) :
    cacheDel (e :: rest) k =
      if e.1 = k then cacheDel rest k else e :: cacheDel rest k := by
  by_cases he : e.1 = k <;> simp [cacheDel, List.filter_cons, he]

theorem cacheGet_cacheDel (c : Cache) (k : String) :
    cacheGet (cacheDel c k) k = none := by
  induction c with
  | nil => rfl
  | cons e rest ih =>
    rw [cacheDel_cons]
    by_cases he : e.1 = k
    · rw [if_pos he]
      exact ih
    · rw [if_neg he, cacheGet_cons, if_neg he]
      exact ih

theorem cacheGet_cacheDel_ne (c : Cache) (k k2 : String) (h : k2 ≠ k) :
    cacheGet (cacheDel c k) k2 = cacheGet c k2 := by
  induction c with
  | nil => rfl
  | cons e rest ih =>
    rw [cacheDel_cons]
    by_cases he : e.1 = k
    · have he2 : ¬e.1 = k2 := by
        rw [he]
        exact fun hc => h hc.symm
      rw [if_pos he, ih, cacheGet_cons, if_neg he2]
    · rw [if_neg he, cacheGet_cons, cacheGet_cons, ih]

/-- C5: if some tracked player matches the `!untrack` argument (persona-id
equality or case-insensitive name equality), the first such player is
spliced out, the list is saved, and that player's `lastStats` entry — and
only that entry — is evicted; if nobody matches, the handler replies "not
being tracked" and leaves the list, the file and the cache untouched. -/
theorem untrackCmd_spec :
    (∀ (s : BotState) (arg : String),
      (∀ p ∈ s.trackedPlayers, untrackPred arg p = false) →
      untrackCmd true s arg = (s, false)) ∧
    (∀ (s : BotState) (arg : String),
      (∃ p ∈ s.trackedPlayers, untrackPred arg p = true) →
      ∃ i removed, s.trackedPlayers[i]? = some removed ∧
        untrackPred arg removed = true ∧
        (∀ j, j < i → ∃ q, s.trackedPlayers[j]? = some q ∧
          untrackPred arg q = false) ∧
        (untrackCmd true s arg).1.trackedPlayers = s.trackedPlayers.eraseIdx i ∧
        (untrackCmd true s arg).1.file = some (s.trackedPlayers.eraseIdx i) ∧
        cacheGet (untrackCmd true s arg).1.lastStats (playerKey removed) = none ∧
        (∀ k, k ≠ playerKey removed →
          cacheGet (untrackCmd true s arg).1.lastStats k = cacheGet s.lastStats k) ∧
        (untrackCmd true s arg).2 = true) := by
  constructor
  · intro s arg hall
    have hnone : findIndexAux (untrackPred arg) s.trackedPlayers = none :=
      findIndexAux_eq_none.mpr hall
    simp [untrackCmd, hnone]
  · intro s arg ⟨p, hmem, hp⟩
    have hne : findIndexAux (untrackPred arg) s.trackedPlayers ≠ none := by
      rw [Ne, findIndexAux_eq_none]
      push_neg
      exact ⟨p, hmem, by simp [hp]⟩
    cases hidx : findIndexAux (untrackPred arg) s.trackedPlayers with
    | none => exact absurd hidx hne
    | some i =>
      obtain ⟨removed, hrem, hpredr, hmin⟩ := findIndexAux_eq_some hidx
      have hgetD :=
        getD_eq_of_getElem? (d := { name := "", platform := "", personaId := none }) hrem
      have hcmd : untrackCmd true s arg =
          ({ trackedPlayers := s.trackedPlayers.eraseIdx i,
             lastStats := cacheDel s.lastStats (playerKey removed),
             file := some (s.trackedPlayers.eraseIdx i) }, true) := by
        simp [untrackCmd, hidx, hgetD, hrem, saveTrackedPlayers]
      refine ⟨i, removed, hrem, hpredr, hmin, ?_, ?_, ?_, ?_, ?_⟩
      · rw [hcmd]
      · rw [hcmd]
      · rw [hcmd]
        exact cacheGet_cacheDel _ _
      · intro k hk
        rw [hcmd]
        exact cacheGet_cacheDel_ne _ _ _ hk
      · rw [hcmd]

theorem untrackCmd_spec_witness :
    (∀ p ∈ ({ trackedPlayers := [{ name := "Alice", platform := "pc", personaId := some "1" }],
              lastStats := [], file := none } : BotState).trackedPlayers,
        untrackPred "zz" p = false) ∧
    untrackCmd true
        { trackedPlayers := [{ name := "Alice", platform := "pc", personaId := some "1" }],
          lastStats := [], file := none } "zz" =
      ({ trackedPlayers := [{ name := "Alice", platform := "pc", personaId := some "1" }],
         lastStats := [], file := none }, false) :=
  ⟨by decide, untrackCmd_spec.1 _ _ (by decide)⟩

theorem resultFor_platform (env : String → FetchOutcome) (n pl : String) :
    (resultFor env n pl).platform = pl := by
  unfold resultFor
  cases h : env pl with
  | throws => rfl
  | notOk => rfl
  | ok data => cases data <;> rfl

theorem searchLoop_eq (env : String → FetchOutcome) (n : String)
    (pls : List String) :
    searchLoop env n pls = (pls.filter (includedB env)).map (resultFor env n) := by
  induction pls with
  | nil => rfl
  | cons pl rest ih =>
    simp only [searchLoop, List.filter_cons]
    cases h : env pl with
    | throws => simp [includedB, h, ih]
    | notOk => simp [includedB, h, ih]
    | ok data =>
      cases data with
      | none => simp [includedB, h, ih]
      | some d =>
        by_cases hr : (strTruthy d.userName || strTruthy d.name ||
            strTruthy d.personaId) = true
        · simp [includedB, resultFor, h, hr, ih]
        · simp [includedB, resultFor, h, hr, ih]

/-- C6: a search produces at most one entry per platform, in the fixed
iteration order pc, xbox, psn; a platform contributes an entry exactly when
its fetch returned HTTP 2xx with a body recognizable as a player
(truthy `userName`, `name` or `personaId`); a platform whose fetch throws
or returns no usable body is skipped without aborting the remaining
platforms. -/
theorem searchPlayers_spec :
    ∀ (env : String → FetchOutcome) (playerName : String),
      searchPlayers env playerName =
        (platforms.filter (includedB env)).map (resultFor env playerName) ∧
      ((searchPlayers env playerName).map SearchResult.platform).Sublist platforms ∧
      (∀ pl, ((searchPlayers env playerName).map SearchResult.platform).count pl ≤ 1) ∧
      (∀ pl ∈ platforms,
        ((∃ r ∈ searchPlayers env playerName, r.platform = pl) ↔
          includedB env pl = true)) := by
  intro env n
  have hchar : searchPlayers env n =
      (platforms.filter (includedB env)).map (resultFor env n) :=
    searchLoop_eq env n platforms
  have hmap : (searchPlayers env n).map SearchResult.platform =
      platforms.filter (includedB env) := by
    rw [hchar, List.map_map]
    have hcomp : SearchResult.platform ∘ resultFor env n = id :=
      funext (resultFor_platform env n)
    rw [hcomp, List.map_id]
  refine ⟨hchar, ?_, ?_, ?_⟩
  · rw [hmap]
    exact List.filter_sublist _
  · intro pl
    have hnd : (platforms.filter (includedB env)).Nodup :=
      List.Nodup.filter _ (by decide)
    rw [hmap]
    exact List.nodup_iff_count_le_one.mp hnd pl
  · intro pl hpl
    constructor
    · rintro ⟨r, hr, hplat⟩
      rw [hchar] at hr
      obtain ⟨pl2, hpl2, rfl⟩ := List.mem_map.mp hr
      rw [resultFor_platform] at hplat
      subst hplat
      exact (List.mem_filter.mp hpl2).2
    · intro hinc
      refine ⟨resultFor env n pl, ?_, resultFor_platform env n pl⟩
      rw [hchar]
      exact List.mem_map_of_mem _ (List.mem_filter.mpr ⟨hpl, hinc⟩)

theorem searchPlayers_spec_witness :
    ("xbox" : String) ∈ platforms ∧
    includedB
      (fun pl => if pl = "xbox" then FetchOutcome.ok (some { userName := some "U" })
                 else FetchOutcome.throws) "xbox" = true ∧
    (∃ r ∈ searchPlayers
        (fun pl => if pl = "xbox" then FetchOutcome.ok (some { userName := some "U" })
                   else FetchOutcome.throws) "Q",
      r.platform = "xbox") :=
  ⟨by decide, by decide,
   ((searchPlayers_spec
       (fun pl => if pl = "xbox" then FetchOutcome.ok (some { userName := some "U" })
                  else FetchOutcome.throws) "Q").2.2.2
     "xbox" (by decide)).mpr (by decide)⟩

/-- C7: whenever a mutating command (`!add`/`!track`, both modelled by
`addCore`, or `!untrack`) actually mutates the tracked list and the file
write succeeds, the persisted file holds exactly the new in-memory list —
every mutation is immediately followed by a save of the full list. -/
theorem store_file_sync :
    (∀ (s : BotState) (fp : Player),
      (addCore true s fp).2 = true →
      (addCore true s fp).1.file = some ((addCore true s fp).1.trackedPlayers)) ∧
    (∀ (s : BotState) (arg : String),
      (untrackCmd true s arg).2 = true →
      (untrackCmd true s arg).1.file =
        some ((untrackCmd true s arg).1.trackedPlayers)) := by
  constructor
  · intro s fp h
    cases hat : alreadyTracked s.trackedPlayers fp with
    | some q => simp [addCore, hat] at h
    | none => simp [addCore, hat, saveTrackedPlayers]
  · intro s arg h
    cases hidx : findIndexAux (untrackPred arg) s.trackedPlayers with
    | none => simp [untrackCmd, hidx] at h
    | some i => simp [untrackCmd, hidx, saveTrackedPlayers]

theorem store_file_sync_witness :
    (addCore true { trackedPlayers := [], lastStats := [], file := none }
        { name := "N", platform := "pc", personaId := some "3" }).2 = true ∧
    (addCore true { trackedPlayers := [], lastStats := [], file := none }
        { name := "N", platform := "pc", personaId := some "3" }).1.file =
      some ((addCore true { trackedPlayers := [], lastStats := [], file := none }
        { name := "N", platform := "pc", personaId := some "3" }).1.trackedPlayers) :=
  ⟨by decide, store_file_sync.1 _ _ (by decide)⟩

/-- C8: the profile URL with a numeric third path segment parses to that
id, the platform/name form parses to nothing, and in general — for any URL
the model can decompose into path segments — the parser returns the third
segment exactly when the path starts `bf6/profile` and that segment is
non-empty and all digits. -/
theorem parseTrackerUrl_spec :
    parseTrackerUrl "https://site/bf6/profile/2481313248/overview" =
      some "2481313248" ∧
    parseTrackerUrl "https://site/bf6/profile/pc/SomeName" = none ∧
    (∀ (url : String) (pathParts : List String) (s : String),
      urlPathParts url = some pathParts →
      (parseTrackerUrl url = some s ↔
        3 ≤ pathParts.length ∧ pathParts.getD 0 "" = "bf6" ∧
        pathParts.getD 1 "" = "profile" ∧ s = pathParts.getD 2 "" ∧
        isAllDigits s = true)) := by
  refine ⟨by decide, by decide, ?_⟩
  intro url parts s h
  simp only [parseTrackerUrl, h]
  by_cases h1 : 3 ≤ parts.length ∧ parts.getD 0 "" = "bf6" ∧
      parts.getD 1 "" = "profile"
  · rw [if_pos h1]
    by_cases h2 : isAllDigits (parts.getD 2 "") = true
    · rw [if_pos h2]
      constructor
      · intro heq
        injection heq with hs
        exact ⟨h1.1, h1.2.1, h1.2.2, hs.symm, hs ▸ h2⟩
      · rintro ⟨-, -, -, rfl, -⟩
        rfl
    · rw [if_neg h2]
      constructor
      · intro hc
        exact absurd hc (by simp)
      · rintro ⟨-, -, -, rfl, hd⟩
        exact absurd hd h2
  · rw [if_neg h1]
    constructor
    · intro hc
      exact absurd hc (by simp)
    · rintro ⟨ha, hb, hc2, rfl, -⟩
      exact absurd ⟨ha, hb, hc2⟩ h1

theorem parseTrackerUrl_spec_witness :
    urlPathParts "https://a/bf6/profile/7/overview" =
      some ["bf6", "profile", "7", "overview"] ∧
    (parseTrackerUrl "https://a/bf6/profile/7/overview" = some "7" ↔
      3 ≤ (["bf6", "profile", "7", "overview"] : List String).length ∧
      (["bf6", "profile", "7", "overview"] : List String).getD 0 "" = "bf6" ∧
      (["bf6", "profile", "7", "overview"] : List String).getD 1 "" = "profile" ∧
      "7" = (["bf6", "profile", "7", "overview"] : List String).getD 2 "" ∧
      isAllDigits "7" = true) :=
  ⟨by decide, parseTrackerUrl_spec.2.2 _ _ "7" (by decide)⟩

theorem probeLoop_eq (env : String → FetchOutcome) (pid : String)
    (pls : List String) :
    addProbeLoop env pid pls = trackProbeLoop env pid pls := by
  induction pls with
  | nil => rfl
  | cons pl rest ih => simp only [addProbeLoop, trackProbeLoop, ih]

/-- C9: the `!add` handler's per-platform id probe and the `!track`
handler's probe are the same function of the player id and the upstream's
responses: they produce the same found player (same name, persona id and
platform) and issue the same requests in the same platform order. -/
theorem probe_equivalence :
    ∀ (env : String → FetchOutcome) (playerId : String),
      addProbe env playerId = trackProbe env playerId := by
  intro env pid
  rw [addProbe, trackProbe, probeLoop_eq]

theorem probe_equivalence_witness :
    addProbe (fun _ => FetchOutcome.throws) "1" =
      trackProbe (fun _ => FetchOutcome.throws) "1" :=
  probe_equivalence _ _
